import Mathlib

/-!
# Cart / Inventory Consistency Engine — verification development

Shallow embedding of the cart, stock and order services of the store
backend (src/services/cartService.js, src/services/productService.js,
src/services/orderService.js, src/models/Product.js with the order schema,
src/controllers/cartController.js), together with proofs of the specified
properties.

Modelling conventions:
* JS numbers holding money are modelled as `ℚ`; quantities and stock
  counts as `ℤ` (they are compared against 0 and may be negative inputs).
* Product / order identifiers are `ℕ`.
* A thrown JS `Error` is an `Err` value; stateful operations return
  `Except Err α × State` so that mutations already persisted before a
  throw survive, exactly as in the source (documents are saved eagerly).
* Timestamps (`new Date()`) are an explicit `now : ℕ` parameter; the
  cart's `lastUpdated` field carries no information used by any property
  and is omitted from the cart record.
-/

namespace ECom

/-- A thrown error, one constructor per distinct `throw new Error(...)`
site relevant to the engine. -/
inductive Err where
  /-- `'Product not found'` (cartService.addToCart) and
  `'Product not found: ...'` (orderService.createOrder). -/
  | productNotFound : Err
  /-- `'Insufficient stock'` / `'Insufficient stock: ...'`. -/
  | insufficientStock : Err
  /-- `'Cart is empty'` (orderService.createOrder). -/
  | cartEmpty : Err
  /-- `'Product not found in cart'` (cartService.updateCartItem). -/
  | productNotFoundInCart : Err
  /-- `'Order not found'` (orderService). -/
  | orderNotFound : Err
  /-- `'This order cannot be cancelled'` (orderService.cancelOrder). -/
  | notCancellable : Err
  /-- `'Prouct not found'` (productService.updateStock). -/
  | productNotFoundStock : Err
deriving DecidableEq, Repr

/-- A catalog product document (models/Product.js, productSchema).
Only the fields the engine reads are kept. -/
structure Product where
  pid : ℕ
  name : String
  price : ℚ
  /-- `discountPrice`; the virtual `finalPrice` treats `0` as falsy,
  mirroring `this.discountPrice || this.price`. -/
  discountPrice : ℚ
  stock : ℤ
  isActive : Bool
  /-- image urls (`images[i].url`) -/
  images : List String
deriving DecidableEq, Repr

/-- Virtual `finalPrice`: `this.discountPrice || this.price`. -/
def Product.finalPrice (p : Product) : ℚ :=
  if p.discountPrice = 0 then p.price else p.discountPrice

/-- The product collection; `_id`s are unique in Mongo, which matters only
where stated as a hypothesis. -/
abbrev Catalog : Type := List Product

/-- `Product.findById`: first document whose `_id` matches. -/
def findById (c : Catalog) (pid : ℕ) : Option Product :=
  c.find? (fun p => p.pid = pid)

/-- `product.save()` after mutating a fetched document: the stored
document with that `_id` is replaced. -/
def saveProduct (c : Catalog) (p : Product) : Catalog :=
  c.map (fun q => if q.pid = p.pid then p else q)

/-- `ProductService.updateStock(productId, quantity)`: fetches the
product, fails when missing or when `stock + quantity` would go negative,
otherwise persists the new stock and returns it. -/
def updateStock (c : Catalog) (pid : ℕ) (quantity : ℤ) :
    Except Err (Catalog × ℤ) :=
  match findById c pid with
  | none => .error .productNotFoundStock
  | some product =>
      let newStock := product.stock + quantity
      if newStock < 0 then .error .insufficientStock
      else .ok (saveProduct c { product with stock := newStock }, newStock)

/-- One line of the Redis cart (cartService.js item shape). -/
structure CartItem where
  /-- referenced product id -/
  product : ℕ
  name : String
  price : ℚ
  quantity : ℤ
  image : Option String
deriving DecidableEq, Repr

/-- The Redis cart snapshot (`lastUpdated` omitted, see header). -/
structure Cart where
  items : List CartItem
  totalAmount : ℚ
  totalItems : ℤ
deriving DecidableEq, Repr

/-- The empty cart materialised by `getCart` / `clearCart`. -/
def emptyCart : Cart := { items := [], totalAmount := 0, totalItems := 0 }

/-- `CartService.calculateCartTotals`: recompute `totalItems` and
`totalAmount` from the items by the same left folds as the JS `reduce`s. -/
def calculateCartTotals (cart : Cart) : Cart :=
  { cart with
    totalItems := cart.items.foldl (fun total item => total + item.quantity) 0
    totalAmount := cart.items.foldl
      (fun total item => total + item.price * item.quantity) 0 }

/-- `cart.items.findIndex(item => item.product === productId)` followed by
reading that element: the first item with the given product id. -/
def findItem (items : List CartItem) (pid : ℕ) : Option CartItem :=
  items.find? (fun item => item.product = pid)

/-- Mutating `cart.items[itemIndex].quantity = q` at the `findIndex`
result: set the quantity of the first matching item. -/
def setItemQty (items : List CartItem) (pid : ℕ) (q : ℤ) : List CartItem :=
  match items with
  | [] => []
  | item :: rest =>
      if item.product = pid then { item with quantity := q } :: rest
      else item :: setItemQty rest pid q

/-- `cart.items.splice(itemIndex, 1)` at the `findIndex` result: drop the
first matching item. -/
def removeFirstItem (items : List CartItem) (pid : ℕ) : List CartItem :=
  match items with
  | [] => []
  | item :: rest =>
      if item.product = pid then rest else item :: removeFirstItem rest pid

/-- `CartService.addToCart(identifier, productId, quantity)` acting on the
actor's current cart: product must exist and be active, stock must cover
the requested quantity and, when the product is already in the cart, the
combined quantity; then the line is merged or appended with the price
snapshotted from `product.finalPrice`, and totals are recomputed. -/
def addToCart (c : Catalog) (cart : Cart) (pid : ℕ) (quantity : ℤ) :
    Except Err Cart :=
  match findById c pid with
  | none => .error .productNotFound
  | some product =>
      if !product.isActive then .error .productNotFound
      else if product.stock < quantity then .error .insufficientStock
      else
        match findItem cart.items pid with
        | some item =>
            let newQuantity := item.quantity + quantity
            if product.stock < newQuantity then .error .insufficientStock
            else .ok (calculateCartTotals
              { cart with items := setItemQty cart.items pid newQuantity })
        | none =>
            .ok (calculateCartTotals
              { cart with items := cart.items ++
                [{ product := pid, name := product.name,
                   price := product.finalPrice, quantity := quantity,
                   image := product.images.head? }] })

/-- `CartService.updateCartItem(identifier, productId, quantity)` acting
on the actor's current cart: fails when the product is not in the cart;
`quantity ≤ 0` removes the line; otherwise the stock check runs only when
the catalog lookup succeeds (`if (product && product.stock < quantity)`),
and the quantity is set. -/
def updateCartItem (c : Catalog) (cart : Cart) (pid : ℕ) (quantity : ℤ) :
    Except Err Cart :=
  match findItem cart.items pid with
  | none => .error .productNotFoundInCart
  | some _ =>
      if quantity ≤ 0 then
        .ok (calculateCartTotals
          { cart with items := removeFirstItem cart.items pid })
      else
        match findById c pid with
        | some product =>
            if product.stock < quantity then .error .insufficientStock
            else .ok (calculateCartTotals
              { cart with items := setItemQty cart.items pid quantity })
        | none =>
            .ok (calculateCartTotals
              { cart with items := setItemQty cart.items pid quantity })

/-- `CartService.removeFromCart(identifier, productId)`: filter the line
out (never fails) and recompute totals. -/
def removeFromCart (cart : Cart) (pid : ℕ) : Cart :=
  calculateCartTotals
    { cart with items := cart.items.filter (fun item => !(item.product = pid)) }

/-- `CartService.clearCart(identifier)`: the stored cart becomes empty. -/
def clearCart : Cart := emptyCart

/-- The `status` enum of the order schema (models, orderSchema). -/
inductive OrderStatus where
  | pending | confirmed | processing | shipped | delivered | cancelled
deriving DecidableEq, Repr

/-- An entry of `statusHistory` as constructed by
`orderSchema.methods.updateStatus` (fields `status`, `note`, `updatedAt`). -/
structure StatusEntry where
  status : OrderStatus
  note : String
  updatedAt : ℕ
deriving DecidableEq, Repr

/-- One order line (orderSchema `items` sub-document). -/
structure OrderItem where
  product : ℕ
  name : String
  quantity : ℤ
  price : ℚ
  total : ℚ
deriving DecidableEq, Repr

/-- An order document. `oid` models the Mongo `_id`; fields irrelevant to
every property (addresses, notes, order number, payment method) are
omitted, `payment.status` is kept as a string. -/
structure Order where
  oid : ℕ
  user : ℕ
  items : List OrderItem
  paymentStatus : String
  status : OrderStatus
  statusHistory : List StatusEntry
  subtotal : ℚ
  shippingCost : ℚ
  tax : ℚ
  total : ℚ
  deliveredAt : Option ℕ
  cancelledAt : Option ℕ
  /-- the schema's reason field is named `cancelledReason`; the service's
  `order.cancelReason = reason` assignment targets a path absent from the
  schema and is dropped by Mongoose strict mode on `save()`, so no code
  path ever sets this field. -/
  cancelledReason : Option String
deriving DecidableEq, Repr

/-- `OrderService.calculateShipping`: free at or above 500, else 29.99. -/
def calculateShipping (subtotal : ℚ) : ℚ :=
  if subtotal ≥ 500 then 0 else 2999 / 100

/-- `OrderService.calculateTax`: flat 20% VAT. -/
def calculateTax (subtotal : ℚ) : ℚ :=
  subtotal * (20 / 100)

/-- The validation loop of `OrderService.createOrder` (lines 31–52): for
each cart item re-read the product, require it to exist and be active and
to have `stock ≥ quantity`; accumulate the order items (priced at the
product's current `finalPrice`) and the subtotal. No state is mutated. -/
def buildOrderItems (c : Catalog) (items : List CartItem) :
    Except Err (List OrderItem × ℚ) :=
  match items with
  | [] => .ok ([], 0)
  | item :: rest =>
      match findById c item.product with
      | none => .error .productNotFound
      | some product =>
          if !product.isActive then .error .productNotFound
          else if product.stock < item.quantity then .error .insufficientStock
          else
            let itemTotal := product.finalPrice * (item.quantity : ℚ)
            match buildOrderItems c rest with
            | .error e => .error e
            | .ok (orderItems, subtotal) =>
                .ok ({ product := product.pid, name := product.name,
                       quantity := item.quantity, price := product.finalPrice,
                       total := itemTotal } :: orderItems,
                     itemTotal + subtotal)

/-- The whole mutable store the engine touches: the product collection,
the order collection, and the per-identifier Redis carts (an absent key
reads as the empty cart, exactly what `getCart` materialises). -/
structure SysState where
  catalog : Catalog
  orders : List Order
  carts : ℕ → Cart

/-- Point update of the cart store (`saveCartToRedis`). -/
def setCart (carts : ℕ → Cart) (k : ℕ) (cart : Cart) : ℕ → Cart :=
  fun j => if j = k then cart else carts j

/-- The stock-decrement loop of `createOrder` (lines 82–84): one
`updateStock(item.product, -item.quantity)` per order item; a failure
stops the loop but keeps the decrements already persisted. -/
def decrementStockLoop (c : Catalog) (items : List OrderItem) :
    Except Err Unit × Catalog :=
  match items with
  | [] => (.ok (), c)
  | item :: rest =>
      match updateStock c item.product (-item.quantity) with
      | .error e => (.error e, c)
      | .ok (c2, _) => decrementStockLoop c2 rest

/-- The stock-restore loop of `cancelOrder` (lines 273–275): one
`updateStock(item.product, item.quantity)` per order item. -/
def restoreStockLoop (c : Catalog) (items : List OrderItem) :
    Except Err Unit × Catalog :=
  match items with
  | [] => (.ok (), c)
  | item :: rest =>
      match updateStock c item.product item.quantity with
      | .error e => (.error e, c)
      | .ok (c2, _) => restoreStockLoop c2 rest

/-- `OrderService.createOrder(userId, orderData)`: load the cart, fail on
empty; validate every line and price the order (no mutation yet); save the
order (fresh id); then decrement stock line by line (the saved order and
earlier decrements survive a mid-loop failure, as in the source); finally
clear the cart. -/
def createOrder (st : SysState) (userId : ℕ) : Except Err Order × SysState :=
  let cart := st.carts userId
  if cart.items.isEmpty then (.error .cartEmpty, st)
  else
    match buildOrderItems st.catalog cart.items with
    | .error e => (.error e, st)
    | .ok (orderItems, subtotal) =>
        let shippingCost := calculateShipping subtotal
        let tax := calculateTax subtotal
        let total := subtotal + shippingCost + tax
        let order : Order :=
          { oid := st.orders.length, user := userId, items := orderItems,
            paymentStatus := "pending", status := .pending,
            statusHistory := [], subtotal := subtotal,
            shippingCost := shippingCost, tax := tax, total := total,
            deliveredAt := none, cancelledAt := none,
            cancelledReason := none }
        let st1 := { st with orders := st.orders ++ [order] }
        match decrementStockLoop st1.catalog orderItems with
        | (.error e, c2) => (.error e, { st1 with catalog := c2 })
        | (.ok _, c2) =>
            (.ok order,
             { st1 with catalog := c2,
                        carts := setCart st1.carts userId emptyCart })

/-- `Order.findOne({ _id: orderId, user: userId })`. -/
def findOrder (orders : List Order) (orderId userId : ℕ) : Option Order :=
  orders.find? (fun o => o.oid = orderId && o.user = userId)

/-- `order.save()` on a fetched, mutated order document. -/
def saveOrder (orders : List Order) (o : Order) : List Order :=
  orders.map (fun q => if q.oid = o.oid then o else q)

/-- `OrderService.cancelOrder(orderId, userId, reason)`: the order must
exist for that user and be `pending` or `confirmed`; stock is restored
line by line; then the order is saved as `cancelled` with `cancelledAt`.
The source also assigns `order.cancelReason = reason` (line 278), but
that path is absent from the order schema (which defines
`cancelledReason`), so Mongoose strict mode drops the assignment on
`save()` and on serialization — the persisted order never records the
reason, and `reason` has no observable effect. -/
def cancelOrder (st : SysState) (orderId userId : ℕ) (reason : String)
    (now : ℕ) : Except Err Order × SysState :=
  match findOrder st.orders orderId userId with
  | none => (.error .orderNotFound, st)
  | some order =>
      if order.status = .pending ∨ order.status = .confirmed then
        match restoreStockLoop st.catalog order.items with
        | (.error e, c2) => (.error e, { st with catalog := c2 })
        | (.ok _, c2) =>
            let order2 := { order with
                            status := .cancelled,
                            cancelledAt := some now }
            (.ok order2,
             { st with catalog := c2, orders := saveOrder st.orders order2 })
      else (.error .notCancellable, st)

/-- `orderSchema.methods.updateStatus(newStatus, note)`: sets `status`;
the source writes `this.statusHistory.push[{...}]` — bracket indexing
into the `push` function, not a call — so no entry is ever appended to
`statusHistory`; then `deliveredAt` (resp. `cancelledAt`) is set when the
new status is `delivered` (resp. `cancelled`). -/
def Order.updateStatus (o : Order) (newStatus : OrderStatus) (note : String)
    (now : ℕ) : Order :=
  let o1 := { o with
              status := newStatus,
              statusHistory := o.statusHistory }
  if newStatus = .delivered then { o1 with deliveredAt := some now }
  else if newStatus = .cancelled then { o1 with cancelledAt := some now }
  else o1

/-- `OrderService.updateOrderStatus(orderId, status, note)`: fetch by id,
apply the instance method, save. -/
def updateOrderStatus (st : SysState) (orderId : ℕ) (status : OrderStatus)
    (note : String) (now : ℕ) : Except Err Order × SysState :=
  match st.orders.find? (fun o => o.oid = orderId) with
  | none => (.error .orderNotFound, st)
  | some order =>
      let order2 := order.updateStatus status note now
      (.ok order2, { st with orders := saveOrder st.orders order2 })

/-- The merge loop of `CartController.mergeCart` (lines 111–113): one
`CartService.addToCart(userId, item.product, item.quantity)` per session
item; the whole loop sits in a single `try`, so the first failure aborts
the remaining iterations (lines already added stay persisted). -/
def mergeItems (st : SysState) (userId : ℕ) (items : List CartItem) :
    Except Err Unit × SysState :=
  match items with
  | [] => (.ok (), st)
  | item :: rest =>
      match addToCart st.catalog (st.carts userId) item.product
          item.quantity with
      | .error e => (.error e, st)
      | .ok cart2 =>
          mergeItems { st with carts := setCart st.carts userId cart2 }
            userId rest

/-- `CartController.mergeCart`: read the session cart; when non-empty,
add each of its items to the user cart and, only if every add succeeded,
clear the session cart; any failure ends the request with a single
generic merge error (no per-line result list exists in the source). -/
def mergeCart (st : SysState) (userId sessionId : ℕ) :
    Except Err Unit × SysState :=
  let sessionCart := st.carts sessionId
  if sessionCart.items.isEmpty then (.ok (), st)
  else
    match mergeItems st userId sessionCart.items with
    | (.error e, st2) => (.error e, st2)
    | (.ok _, st2) =>
        (.ok (), { st2 with carts := setCart st2.carts sessionId emptyCart })

/-- Spec-side predicate: the stored totals match the items
(`totalItems = Σ quantity`, `totalAmount = Σ quantity × unitPrice`). -/
def cartTotalsOk (cart : Cart) : Prop :=
  cart.totalItems =
      cart.items.foldl (fun total item => total + item.quantity) 0 ∧
    cart.totalAmount =
      cart.items.foldl
        (fun total item => total + item.price * (item.quantity : ℚ)) 0

instance (cart : Cart) : Decidable (cartTotalsOk cart) := by
  unfold cartTotalsOk; infer_instance

/-- Spec-side: the current catalog `finalPrice` of a cart line's product
(0 when the product does not resolve; on every path where this is used
the lookup succeeds). -/
def lineFinalPrice (c : Catalog) (item : CartItem) : ℚ :=
  match findById c item.product with
  | some p => p.finalPrice
  | none => 0

/-- Spec-side: `Σ line.quantity × currentFinalPrice` over cart lines. -/
def specSubtotal (c : Catalog) (items : List CartItem) : ℚ :=
  (items.map (fun item => (item.quantity : ℚ) * lineFinalPrice c item)).sum

/-- Spec-side: the quantity already in the actor's cart for a product id
(0 when the product is not in the cart). -/
def existingQty (cart : Cart) (pid : ℕ) : ℤ :=
  match findItem cart.items pid with
  | some item => item.quantity
  | none => 0

/-- Spec-side driver for the stock-safety property: run an arbitrary
sequence of `updateStock` calls (positive amounts are increments,
negative ones decrements), a failed call leaving the catalog as it was —
exactly what a caller that catches the throw observes. -/
def applyStockOps (c : Catalog) : List (ℕ × ℤ) → Catalog
  | [] => c
  | (pid, q) :: rest =>
      match updateStock c pid q with
      | .error _ => applyStockOps c rest
      | .ok (c2, _) => applyStockOps c2 rest

/-! ## Concrete fixtures used by witnesses -/

/-- An active product, no discount, stock 5. -/
def prodA : Product :=
  { pid := 1, name := "A", price := 100, discountPrice := 0, stock := 5,
    isActive := true, images := [] }

/-- An active discounted product, stock 5. -/
def prodB : Product :=
  { pid := 2, name := "B", price := 50, discountPrice := 40, stock := 5,
    isActive := true, images := [] }

/-- A consistent one-line cart holding three units of `prodA`. -/
def demoCartA : Cart :=
  { items := [{ product := 1, name := "A", price := 100, quantity := 3,
                image := none }],
    totalAmount := 300, totalItems := 3 }

/-- A full store: catalog `[prodA, prodB]`, no orders, and actor 7
holding `demoCartA`. -/
def demoState : SysState :=
  { catalog := [prodA, prodB], orders := [],
    carts := setCart (fun _ => emptyCart) 7 demoCartA }

/-- The order that `createOrder demoState 7` produces: three units of
`prodA` at the current final price 100, shipping 29.99 (subtotal below
500), 20% tax. -/
def demoOrder : Order :=
  { oid := 0, user := 7,
    items := [{ product := 1, name := "A", quantity := 3, price := 100,
                total := 300 }],
    paymentStatus := "pending", status := .pending, statusHistory := [],
    subtotal := 300, shippingCost := 2999 / 100, tax := 60,
    total := 38999 / 100, deliveredAt := none, cancelledAt := none,
    cancelledReason := none }

/-- A pending order for actor 7 with lines `[(A,2),(B,1)]`, the
cancellation example of the spec. -/
def demoCancelOrder : Order :=
  { oid := 0, user := 7,
    items := [{ product := 1, name := "A", quantity := 2, price := 100,
                total := 200 },
              { product := 2, name := "B", quantity := 1, price := 40,
                total := 40 }],
    paymentStatus := "pending", status := .pending, statusHistory := [],
    subtotal := 240, shippingCost := 2999 / 100, tax := 48,
    total := 31799 / 100, deliveredAt := none, cancelledAt := none,
    cancelledReason := none }

/-- The store in which `demoCancelOrder` is the only order. -/
def demoCancelState : SysState :=
  { catalog := [prodA, prodB], orders := [demoCancelOrder],
    carts := fun _ => emptyCart }

/-- A session cart holding `[(A,2),(B,1)]`. -/
def demoSessionCart : Cart :=
  { items := [{ product := 1, name := "A", price := 100, quantity := 2,
                image := none },
              { product := 2, name := "B", price := 40, quantity := 1,
                image := none }],
    totalAmount := 240, totalItems := 3 }

/-- A store where only one unit of A is left, actor 0 (the user) has an
empty cart and actor 1 (the session) holds `demoSessionCart`. -/
def demoMergeState : SysState :=
  { catalog := [{ prodA with stock := 1 }, prodB], orders := [],
    carts := setCart (fun _ => emptyCart) 1 demoSessionCart }

/-! ## Helper lemmas -/

theorem cartTotalsOk_calc (cart : Cart) :
    cartTotalsOk (calculateCartTotals cart) := ⟨rfl, rfl⟩

theorem cartTotalsOk_empty : cartTotalsOk emptyCart := ⟨rfl, rfl⟩

theorem addToCart_ok_totals {c : Catalog} {cart cart' : Cart} {pid : ℕ}
    {q : ℤ} (h : addToCart c cart pid q = .ok cart') : cartTotalsOk cart' := by
  unfold addToCart at h
  split at h
  · exact absurd h (by simp)
  · split at h
    · exact absurd h (by simp)
    · split at h
      · exact absurd h (by simp)
      · split at h
        · simp only [] at h
          split at h
          · exact absurd h (by simp)
          · rw [Except.ok.injEq] at h
            exact h ▸ cartTotalsOk_calc _
        · rw [Except.ok.injEq] at h
          exact h ▸ cartTotalsOk_calc _

theorem updateCartItem_ok_totals {c : Catalog} {cart cart' : Cart} {pid : ℕ}
    {q : ℤ} (h : updateCartItem c cart pid q = .ok cart') :
    cartTotalsOk cart' := by
  unfold updateCartItem at h
  split at h
  · exact absurd h (by simp)
  · split at h
    · rw [Except.ok.injEq] at h
      exact h ▸ cartTotalsOk_calc _
    · split at h
      · split at h
        · exact absurd h (by simp)
        · rw [Except.ok.injEq] at h
          exact h ▸ cartTotalsOk_calc _
      · rw [Except.ok.injEq] at h
        exact h ▸ cartTotalsOk_calc _

theorem mergeItems_totals_all {items : List CartItem} {st : SysState}
    {u : ℕ} (h : ∀ j, cartTotalsOk (st.carts j)) :
    ∀ j, cartTotalsOk (((mergeItems st u items).2).carts j) := by
  induction items generalizing st with
  | nil => exact h
  | cons item rest ih =>
      simp only [mergeItems]
      cases hadd : addToCart st.catalog (st.carts u) item.product
          item.quantity with
      | error e => exact h
      | ok cart2 =>
          apply ih
          intro j
          by_cases hj : j = u
          · subst hj
            simpa [setCart] using addToCart_ok_totals hadd
          · simpa [setCart, hj] using h j

theorem saveProduct_nonneg {c : Catalog} {p : Product}
    (h : ∀ r ∈ c, 0 ≤ r.stock) (hp : 0 ≤ p.stock) :
    ∀ r ∈ saveProduct c p, 0 ≤ r.stock := by
  intro r hr
  obtain ⟨r0, hr0, hr0eq⟩ := List.mem_map.mp hr
  by_cases hpid : r0.pid = p.pid
  · rw [if_pos hpid] at hr0eq; subst hr0eq; exact hp
  · rw [if_neg hpid] at hr0eq; subst hr0eq; exact h r0 hr0

theorem updateStock_preserves_nonneg {c c2 : Catalog} {pid : ℕ} {q n : ℤ}
    (h : ∀ r ∈ c, 0 ≤ r.stock) (hok : updateStock c pid q = .ok (c2, n)) :
    ∀ r ∈ c2, 0 ≤ r.stock := by
  unfold updateStock at hok
  split at hok
  · exact absurd hok (by simp)
  · rename_i product heq
    simp only [] at hok
    split at hok
    · exact absurd hok (by simp)
    · rename_i hnneg
      rw [Except.ok.injEq, Prod.mk.injEq] at hok
      obtain ⟨hc2, -⟩ := hok
      subst hc2
      exact saveProduct_nonneg h (show 0 ≤ product.stock + q by omega)

theorem applyStockOps_nonneg {c : Catalog} (h : ∀ r ∈ c, 0 ≤ r.stock) :
    ∀ ops : List (ℕ × ℤ), ∀ r ∈ applyStockOps c ops, 0 ≤ r.stock := by
  intro ops
  induction ops generalizing c with
  | nil => exact h
  | cons op rest ih =>
      obtain ⟨pid, q⟩ := op
      simp only [applyStockOps]
      cases hus : updateStock c pid q with
      | error e => exact ih h
      | ok res =>
          obtain ⟨c2, n⟩ := res
          exact ih (updateStock_preserves_nonneg h hus)

theorem findById_pid {c : Catalog} {pid : ℕ} {p : Product}
    (h : findById c pid = some p) : p.pid = pid := by
  have := List.find?_some h
  simpa using this

theorem findById_saveProduct_ne {c : Catalog} {p : Product} {pid : ℕ}
    (h : pid ≠ p.pid) : findById (saveProduct c p) pid = findById c pid := by
  induction c with
  | nil => rfl
  | cons q rest ih =>
      unfold saveProduct at ih ⊢
      unfold findById at ih ⊢
      simp only [List.map_cons]
      by_cases hq : q.pid = p.pid
      · rw [if_pos hq]
        rw [List.find?_cons_of_neg _ (by simp; exact fun he => h he.symm),
          List.find?_cons_of_neg _ (by simp [hq]; exact fun he => h he.symm)]
        exact ih
      · rw [if_neg hq]
        by_cases hqp : q.pid = pid
        · rw [List.find?_cons_of_pos _ (by simp [hqp]),
            List.find?_cons_of_pos _ (by simp [hqp])]
        · rw [List.find?_cons_of_neg _ (by simp [hqp]),
            List.find?_cons_of_neg _ (by simp [hqp])]
          exact ih

theorem findById_saveProduct_self {c : Catalog} {p p' : Product} {pid : ℕ}
    (h : findById c pid = some p) (hpid : p'.pid = p.pid) :
    findById (saveProduct c p') pid = some p' := by
  have hp : p.pid = pid := findById_pid h
  induction c with
  | nil => exact absurd h (by simp [findById])
  | cons q rest ih =>
      unfold findById at h ih ⊢
      unfold saveProduct at ih ⊢
      simp only [List.map_cons]
      by_cases hq : q.pid = pid
      · rw [List.find?_cons_of_pos _ (by simp [hq])] at h
        injection h with h
        subst h
        rw [if_pos (by rw [hpid])]
        rw [List.find?_cons_of_pos _ (by simp [hpid, hp])]
      · rw [List.find?_cons_of_neg _ (by simp [hq])] at h
        by_cases hqp' : q.pid = p'.pid
        · exact absurd (by rw [hqp', hpid, hp]) hq
        · rw [if_neg hqp']
          rw [List.find?_cons_of_neg _ (by simp [hq])]
          exact ih h

theorem restoreStockLoop_ok {items : List OrderItem} {c : Catalog}
    (hex : ∀ item ∈ items, ∃ p, findById c item.product = some p)
    (hnn : ∀ r ∈ c, 0 ≤ r.stock)
    (hq : ∀ item ∈ items, 0 ≤ item.quantity)
    (hnodup : (items.map OrderItem.product).Nodup) :
    ∃ c2, restoreStockLoop c items = (.ok (), c2) ∧
      (∀ r ∈ c2, 0 ≤ r.stock) ∧
      (∀ item ∈ items, ∀ p, findById c item.product = some p →
         findById c2 item.product =
           some { p with stock := p.stock + item.quantity }) ∧
      (∀ pid, pid ∉ items.map OrderItem.product →
         findById c2 pid = findById c pid) := by
  induction items generalizing c with
  | nil => exact ⟨c, rfl, hnn, by simp, fun pid _ => rfl⟩
  | cons i rest ih =>
      obtain ⟨p, hp⟩ := hex i (by simp)
      have hpq : 0 ≤ i.quantity := hq i (by simp)
      have hpnn : 0 ≤ p.stock := hnn p (List.mem_of_find?_eq_some hp)
      have hppid : p.pid = i.product := findById_pid hp
      have hstep : updateStock c i.product i.quantity =
          .ok (saveProduct c { p with stock := p.stock + i.quantity },
               p.stock + i.quantity) := by
        unfold updateStock
        rw [hp]
        simp only []
        rw [if_neg (by omega)]
      set c1 : Catalog :=
        saveProduct c { p with stock := p.stock + i.quantity } with hc1
      have hnodup1 : i.product ∉ rest.map OrderItem.product :=
        (List.nodup_cons.mp hnodup).1
      have hfind1 : ∀ pid, pid ≠ i.product →
          findById c1 pid = findById c pid := fun pid hne =>
        findById_saveProduct_ne (by simpa [hppid] using hne)
      have hex1 : ∀ item ∈ rest, ∃ pr, findById c1 item.product = some pr := by
        intro item hitem
        obtain ⟨pr, hpr⟩ := hex item (by simp [hitem])
        have hne : item.product ≠ i.product := by
          intro he
          exact hnodup1 (he ▸ List.mem_map_of_mem OrderItem.product hitem)
        exact ⟨pr, by rw [hfind1 _ hne, hpr]⟩
      have hnn1 : ∀ r ∈ c1, 0 ≤ r.stock :=
        saveProduct_nonneg hnn (show 0 ≤ p.stock + i.quantity by omega)
      have hq1 : ∀ item ∈ rest, 0 ≤ item.quantity :=
        fun item hitem => hq item (by simp [hitem])
      obtain ⟨c2, hloop, hnn2, hrestore2, hother2⟩ :=
        ih hex1 hnn1 hq1 (List.nodup_cons.mp hnodup).2
      refine ⟨c2, ?_, hnn2, ?_, ?_⟩
      · unfold restoreStockLoop
        rw [hstep]
        exact hloop
      · intro item hitem pr hpr
        rcases List.mem_cons.mp hitem with hhead | htail
        · subst hhead
          rw [hp] at hpr
          injection hpr with hpr
          subst hpr
          rw [hother2 item.product hnodup1]
          exact findById_saveProduct_self hp rfl
        · have hne : item.product ≠ i.product := by
            intro he
            exact hnodup1 (he ▸ List.mem_map_of_mem OrderItem.product htail)
          refine hrestore2 item htail pr ?_
          rw [hfind1 _ hne]
          exact hpr
      · intro pid hpid
        have hne : pid ≠ i.product := by
          intro he
          exact hpid (by simp [he])
        rw [hother2 pid (fun hmem => hpid (by simp [hmem]))]
        exact hfind1 _ hne

theorem decrementStockLoop_ok {items : List OrderItem} {c : Catalog}
    (hval : ∀ item ∈ items,
      ∃ p, findById c item.product = some p ∧ item.quantity ≤ p.stock)
    (hnodup : (items.map OrderItem.product).Nodup) :
    ∃ c2, decrementStockLoop c items = (.ok (), c2) := by
  induction items generalizing c with
  | nil => exact ⟨c, rfl⟩
  | cons i rest ih =>
      obtain ⟨p, hp, hle⟩ := hval i (by simp)
      have hppid : p.pid = i.product := findById_pid hp
      have hstep : updateStock c i.product (-i.quantity) =
          .ok (saveProduct c { p with stock := p.stock + -i.quantity },
               p.stock + -i.quantity) := by
        unfold updateStock
        rw [hp]
        simp only []
        rw [if_neg (by omega)]
      set c1 : Catalog :=
        saveProduct c { p with stock := p.stock + -i.quantity } with hc1
      have hnodup1 : i.product ∉ rest.map OrderItem.product :=
        (List.nodup_cons.mp hnodup).1
      have hval1 : ∀ item ∈ rest,
          ∃ pr, findById c1 item.product = some pr ∧
            item.quantity ≤ pr.stock := by
        intro item hitem
        obtain ⟨pr, hpr, hprle⟩ := hval item (by simp [hitem])
        have hne : item.product ≠ i.product := by
          intro he
          exact hnodup1 (he ▸ List.mem_map_of_mem OrderItem.product hitem)
        refine ⟨pr, ?_, hprle⟩
        rw [findById_saveProduct_ne (by simpa [hppid] using hne)]
        exact hpr
      obtain ⟨c2, hloop⟩ := ih hval1 (List.nodup_cons.mp hnodup).2
      refine ⟨c2, ?_⟩
      unfold decrementStockLoop
      rw [hstep]
      exact hloop

theorem findOrder_user {orders : List Order} {oid uid : ℕ} {o : Order}
    (h : findOrder orders oid uid = some o) : o.oid = oid ∧ o.user = uid := by
  have := List.find?_some h
  simpa using this

theorem findOrder_saveOrder {orders : List Order} {oid uid : ℕ}
    {o o2 : Order} (h : findOrder orders oid uid = some o)
    (h2 : o2.oid = o.oid) (h3 : o2.user = uid) :
    findOrder (saveOrder orders o2) oid uid = some o2 := by
  obtain ⟨hoid, -⟩ := findOrder_user h
  induction orders with
  | nil => exact absurd h (by simp [findOrder])
  | cons q rest ih =>
      unfold findOrder at h ih ⊢
      unfold saveOrder at ih ⊢
      simp only [List.map_cons]
      by_cases hq : q.oid = oid ∧ q.user = uid
      · rw [List.find?_cons_of_pos _ (by simp [hq.1, hq.2])] at h
        injection h with h
        subst h
        rw [if_pos (by rw [h2])]
        rw [List.find?_cons_of_pos _ (by simp [h2, hoid, h3])]
      · by_cases hqo : q.oid = o2.oid
        · rw [if_pos hqo]
          rw [List.find?_cons_of_pos _ (by simp [h2, hoid, h3])]
        · rw [if_neg hqo]
          have hqfalse : ¬(q.oid = oid ∧ q.user = uid) := hq
          have hne : ¬(q.oid = oid) ∨ ¬(q.user = uid) := by tauto
          rw [List.find?_cons_of_neg _ (by simp; tauto)] at h
          rw [List.find?_cons_of_neg _ (by simp; tauto)]
          exact ih h

theorem buildOrderItems_subtotal {c : Catalog} {items : List CartItem}
    {os : List OrderItem} {sub : ℚ}
    (h : buildOrderItems c items = .ok (os, sub)) :
    sub = specSubtotal c items := by
  induction items generalizing os sub with
  | nil =>
      unfold buildOrderItems at h
      rw [Except.ok.injEq, Prod.mk.injEq] at h
      simp [specSubtotal, ← h.2]
  | cons item rest ih =>
      unfold buildOrderItems at h
      split at h
      · exact absurd h (by simp)
      · rename_i product hfind
        split at h
        · exact absurd h (by simp)
        · split at h
          · exact absurd h (by simp)
          · simp only [] at h
            split at h
            · exact absurd h (by simp)
            · rename_i res os' sub' hrec
              rw [Except.ok.injEq, Prod.mk.injEq] at h
              obtain ⟨-, hsub⟩ := h
              subst hsub
              rw [ih hrec]
              simp only [specSubtotal, List.map_cons, List.sum_cons,
                lineFinalPrice, hfind]
              ring

theorem buildOrderItems_valid {c : Catalog} {items : List CartItem}
    {os : List OrderItem} {sub : ℚ}
    (h : buildOrderItems c items = .ok (os, sub)) :
    (∀ oi ∈ os, ∃ p, findById c oi.product = some p ∧
       oi.quantity ≤ p.stock) ∧
    os.map OrderItem.product = items.map CartItem.product := by
  induction items generalizing os sub with
  | nil =>
      unfold buildOrderItems at h
      rw [Except.ok.injEq, Prod.mk.injEq] at h
      obtain ⟨hos, -⟩ := h
      subst hos
      simp
  | cons item rest ih =>
      unfold buildOrderItems at h
      split at h
      · exact absurd h (by simp)
      · rename_i product hfind
        split at h
        · exact absurd h (by simp)
        · rename_i hact
          split at h
          · exact absurd h (by simp)
          · rename_i hstock
            simp only [] at h
            split at h
            · exact absurd h (by simp)
            · rename_i res os' sub' hrec
              rw [Except.ok.injEq, Prod.mk.injEq] at h
              obtain ⟨hos, -⟩ := h
              subst hos
              obtain ⟨ihv, ihm⟩ := ih hrec
              have hpid : product.pid = item.product := findById_pid hfind
              constructor
              · intro oi hoi
                rcases List.mem_cons.mp hoi with hhead | htail
                · subst hhead
                  refine ⟨product, ?_, ?_⟩
                  · show findById c product.pid = some product
                    rw [hpid]
                    exact hfind
                  · show item.quantity ≤ product.stock
                    omega
                · exact ihv oi htail
              · simp [ihm, hpid]

theorem mergeItems_carts_ne {items : List CartItem} {st : SysState}
    {u j : ℕ} (h : j ≠ u) :
    ((mergeItems st u items).2).carts j = st.carts j := by
  induction items generalizing st with
  | nil => rfl
  | cons item rest ih =>
      unfold mergeItems
      cases hadd : addToCart st.catalog (st.carts u) item.product
          item.quantity with
      | error e => rfl
      | ok cart2 =>
          dsimp only []
          rw [ih]
          simp [setCart, h]

/-! ## Claim theorems -/

/-- C1. Order assembly is all-or-nothing: for every cart whose lines
reference distinct products (the cart data-model invariant) and every
failure of `createOrder` — empty cart, unavailable product, or
insufficient stock detected at any line — the operation aborts with the
whole store unchanged: no order is persisted and every product's
available stock equals its pre-call value (all failures are raised by the
validation pass, before the saved order and the decrement loop, so there
is never a partial decrement to roll back). -/
theorem createOrder_atomic :
    ∀ (st : SysState) (u : ℕ) (e : Err),
      ((st.carts u).items.map CartItem.product).Nodup →
      (createOrder st u).1 = .error e →
      (createOrder st u).2 = st := by
  intro st u e hnodup h
  unfold createOrder at h ⊢
  simp only [] at h ⊢
  by_cases hemp : (st.carts u).items.isEmpty = true
  · rw [if_pos hemp]
  · rw [if_neg hemp] at h ⊢
    cases hbuild : buildOrderItems st.catalog (st.carts u).items with
    | error e2 => rfl
    | ok pr =>
        obtain ⟨orderItems, subtotal⟩ := pr
        rw [hbuild] at h
        dsimp only [] at h
        obtain ⟨hval, hmap⟩ := buildOrderItems_valid hbuild
        obtain ⟨c2, hloop⟩ :=
          decrementStockLoop_ok hval (by rw [hmap]; exact hnodup)
        rw [hloop] at h
        exact absurd h (by simp)

/-- C1 witness: `createOrder` on an empty cart fails with `EmptyCart` and
leaves the store exactly as it was. -/
theorem createOrder_atomic_witness :
    (createOrder demoCancelState 3).1 = .error .cartEmpty ∧
    (createOrder demoCancelState 3).2 = demoCancelState :=
  ⟨rfl, createOrder_atomic demoCancelState 3 .cartEmpty
    (by simp [demoCancelState, emptyCart]) rfl⟩

/-- C6 counterexample: merging a session cart `[(A,2),(B,1)]` into an
empty user cart with only one A in stock does not skip the failing line:
the whole merge aborts with a single error, the later line B is never
added to the user cart, and the session cart is not cleared — there is no
per-line result list. -/
theorem mergeCart_not_partial_counterexample :
    (mergeCart demoMergeState 0 1).1 = .error .insufficientStock ∧
    ((mergeCart demoMergeState 0 1).2).carts 1 = demoSessionCart ∧
    findItem (((mergeCart demoMergeState 0 1).2).carts 0).items 2 =
      none :=
  ⟨rfl, rfl, rfl⟩

/-- C6 (amended). `mergeCart` applies `addToCart` to each source line in
order but is not partial-with-skip: the first line that fails stock
validation aborts the rest of the loop with that single error (no
per-line result list), the source cart is cleared only when every line
succeeded, and on failure the source cart is left untouched. -/
theorem mergeCart_aborts_on_failure :
    ∀ (st : SysState) (u s : ℕ), u ≠ s →
      ((mergeCart st u s).1 = .ok () →
         ((st.carts s).items = [] ∧ (mergeCart st u s).2 = st) ∨
         ((mergeCart st u s).2).carts s = emptyCart) ∧
      (∀ e, (mergeCart st u s).1 = .error e →
         ((mergeCart st u s).2).carts s = st.carts s) ∧
      (∀ (item : CartItem) (rest : List CartItem) (e : Err),
         addToCart st.catalog (st.carts u) item.product item.quantity =
           .error e →
         mergeItems st u (item :: rest) = (.error e, st)) := by
  intro st u s hus
  have hsu : s ≠ u := fun hsu => hus hsu.symm
  refine ⟨?_, ?_, ?_⟩
  · intro hok
    unfold mergeCart at hok ⊢
    simp only [] at hok ⊢
    by_cases hemp : (st.carts s).items.isEmpty = true
    · rw [if_pos hemp]
      exact Or.inl ⟨List.isEmpty_iff.mp hemp, rfl⟩
    · rw [if_neg hemp] at hok ⊢
      cases hmi : mergeItems st u (st.carts s).items with
      | mk res st2 =>
          rw [hmi] at hok
          cases res with
          | error e => exact Except.noConfusion hok
          | ok _ => exact Or.inr (by simp [setCart])
  · intro e herr
    unfold mergeCart at herr ⊢
    simp only [] at herr ⊢
    by_cases hemp : (st.carts s).items.isEmpty = true
    · rw [if_pos hemp] at herr
      exact absurd herr (by simp)
    · rw [if_neg hemp] at herr ⊢
      cases hmi : mergeItems st u (st.carts s).items with
      | mk res st2 =>
          rw [hmi] at herr
          cases res with
          | error e2 =>
              have := @mergeItems_carts_ne (st.carts s).items st u s hsu
              rw [hmi] at this
              exact this
          | ok _ => exact Except.noConfusion herr
  · intro item rest e hadd
    unfold mergeItems
    rw [hadd]

/-- C6 witness for the amended claim: in the concrete failing merge the
source cart is untouched, and the merge loop aborts at the first failing
line with its error. -/
theorem mergeCart_aborts_on_failure_witness :
    ((mergeCart demoMergeState 0 1).2).carts 1 = demoMergeState.carts 1 ∧
    mergeItems demoMergeState 0 demoSessionCart.items =
      (.error .insufficientStock, demoMergeState) := by
  have h := mergeCart_aborts_on_failure demoMergeState 0 1 (by decide)
  exact ⟨h.2.1 .insufficientStock rfl,
    h.2.2 { product := 1, name := "A", price := 100, quantity := 2,
            image := none }
      [{ product := 2, name := "B", price := 40, quantity := 1,
         image := none }] .insufficientStock rfl⟩

/-- C2. Stock non-negativity: starting from a catalog with no negative
stock (the schema's `min: 0`), every sequence of `updateStock`
increments/decrements keeps every product's available quantity ≥ 0; a
single decrement whose result would be negative fails with
`InsufficientStock` (leaving the catalog unreturned, hence unchanged for
the caller), otherwise it applies and returns the new quantity. -/
theorem stock_nonneg_invariant :
    ∀ (c : Catalog) (pid : ℕ) (q : ℤ) (p : Product),
      (∀ r ∈ c, 0 ≤ r.stock) →
      ((∀ ops : List (ℕ × ℤ), ∀ r ∈ applyStockOps c ops, 0 ≤ r.stock) ∧
       (findById c pid = some p →
         (p.stock + q < 0 →
           updateStock c pid q = .error .insufficientStock) ∧
         (0 ≤ p.stock + q →
           updateStock c pid q =
             .ok (saveProduct c { p with stock := p.stock + q },
                  p.stock + q)))) := by
  intro c pid q p h
  refine ⟨applyStockOps_nonneg h, fun hfind => ⟨fun hneg => ?_, fun hpos => ?_⟩⟩
  · unfold updateStock
    rw [hfind]
    simp only []
    rw [if_pos hneg]
  · unfold updateStock
    rw [hfind]
    simp only []
    rw [if_neg (by omega)]

/-- C2 witness: with stock 5, a decrement of 7 fails with
`InsufficientStock` and a decrement of 3 applies, returning 2. -/
theorem stock_nonneg_invariant_witness :
    updateStock [prodA] 1 (-7) = .error .insufficientStock ∧
    updateStock [prodA] 1 (-3) =
      .ok (saveProduct [prodA] { prodA with stock := prodA.stock + (-3) },
           prodA.stock + (-3)) := by
  have h7 := (stock_nonneg_invariant [prodA] 1 (-7) prodA (by decide)).2 rfl
  have h3 := (stock_nonneg_invariant [prodA] 1 (-3) prodA (by decide)).2 rfl
  exact ⟨h7.1 (by decide), h3.2 (by decide)⟩

/-- C7. Cart totals invariant: after every cart mutation (add, update,
remove, clear, and — for every actor's cart — merge), the persisted cart
satisfies `totalAmount = Σ quantity × unitPrice` and
`totalItems = Σ quantity` exactly. -/
theorem cart_mutations_preserve_totals :
    ∀ (c : Catalog) (cart cart' : Cart) (pid : ℕ) (q : ℤ) (st : SysState)
      (u s k : ℕ),
      (addToCart c cart pid q = .ok cart' → cartTotalsOk cart') ∧
      (updateCartItem c cart pid q = .ok cart' → cartTotalsOk cart') ∧
      cartTotalsOk (removeFromCart cart pid) ∧
      cartTotalsOk clearCart ∧
      ((∀ j, cartTotalsOk (st.carts j)) →
        cartTotalsOk (((mergeCart st u s).2).carts k)) := by
  intro c cart cart' pid q st u s k
  refine ⟨fun h => addToCart_ok_totals h,
          fun h => updateCartItem_ok_totals h,
          cartTotalsOk_calc _, cartTotalsOk_empty, fun h => ?_⟩
  unfold mergeCart
  simp only []
  split
  · exact h k
  · have hall := @mergeItems_totals_all (st.carts s).items st u h
    cases hmi : mergeItems st u (st.carts s).items with
    | mk res st2 =>
        have hk2 := hall k
        rw [hmi] at hk2
        cases res with
        | error e => exact hk2
        | ok _ =>
            by_cases hk : k = s
            · subst hk
              simpa [setCart] using cartTotalsOk_empty
            · simpa [setCart, hk] using hk2

/-- C7 witness: the cart produced by a concrete `addToCart` satisfies the
totals invariant. -/
theorem cart_mutations_preserve_totals_witness : cartTotalsOk demoCartA :=
  (cart_mutations_preserve_totals [prodA] emptyCart demoCartA 1 3
    ⟨[], [], fun _ => emptyCart⟩ 0 1 0).1
    (by norm_num [addToCart, findById, findItem, emptyCart,
      calculateCartTotals, prodA, demoCartA, Product.finalPrice, List.find?])

/-- C5 counterexample: `updateLine` with quantity 0 on a product id absent
from the cart does not succeed as a no-op — it fails with `LineNotFound`
(`'Product not found in cart'`), because `updateCartItem` checks cart
membership before looking at the quantity. -/
theorem updateCartItem_absent_zero_errors :
    updateCartItem [] emptyCart 1 0 = .error .productNotFoundInCart := rfl

/-- C5 (amended). `removeLine` on an absent product id succeeds with no
state change, but `updateLine` on an absent product id fails with
`LineNotFound` for every quantity, including quantity ≤ 0. -/
theorem idempotent_removal_amended :
    ∀ (c : Catalog) (cart : Cart) (pid : ℕ),
      findItem cart.items pid = none → cartTotalsOk cart →
      removeFromCart cart pid = cart ∧
      (∀ q : ℤ, updateCartItem c cart pid q =
        .error .productNotFoundInCart) := by
  intro c cart pid hnone hwf
  have habs : ∀ a ∈ cart.items, ¬(a.product = pid) := by
    intro a ha
    have := List.find?_eq_none.mp hnone a ha
    simpa using this
  constructor
  · have hfilter :
        cart.items.filter (fun item => !(item.product = pid)) = cart.items :=
      List.filter_eq_self.mpr (fun a ha => by simpa using habs a ha)
    obtain ⟨h1, h2⟩ := hwf
    cases cart with
    | mk items ta ti =>
        simp only [removeFromCart, calculateCartTotals] at *
        rw [hfilter, ← h1, ← h2]
  · intro q
    unfold updateCartItem
    rw [hnone]

/-- C5 witness for the amended claim at a concrete cart. -/
theorem idempotent_removal_witness :
    removeFromCart demoCartA 2 = demoCartA ∧
    updateCartItem [prodA] demoCartA 2 0 = .error .productNotFoundInCart := by
  have h := idempotent_removal_amended [prodA] demoCartA 2
    (by norm_num [findItem, demoCartA, List.find?])
    (by constructor <;> norm_num [demoCartA, cartTotalsOk])
  exact ⟨h.1, h.2 0⟩

/-- C10. When the product referenced by a cart line no longer resolves in
the catalog, `updateCartItem` with a positive quantity performs no
stock-availability check at all (the guard `if (product && ...)` is
skipped) and sets the new quantity anyway, instead of failing. -/
theorem updateCartItem_missing_product_skips_check :
    ∀ (c : Catalog) (cart : Cart) (pid : ℕ) (q : ℤ) (item : CartItem),
      0 < q → findItem cart.items pid = some item → findById c pid = none →
      updateCartItem c cart pid q =
        .ok (calculateCartTotals
          { cart with items := setItemQty cart.items pid q }) := by
  intro c cart pid q item hq hfind hbyid
  unfold updateCartItem
  rw [hfind, hbyid, if_neg (by omega)]

/-- C10 witness: quantity 7 is set even though the product is absent from
the catalog and only 5 were ever in stock. -/
theorem updateCartItem_missing_product_skips_check_witness :
    updateCartItem [] demoCartA 1 7 =
      .ok { items := [{ product := 1, name := "A", price := 100,
                        quantity := 7, image := none }],
            totalAmount := 700, totalItems := 7 } := by
  rw [updateCartItem_missing_product_skips_check [] demoCartA 1 7
    { product := 1, name := "A", price := 100, quantity := 3, image := none }
    (by norm_num) (by norm_num [findItem, demoCartA, List.find?]) rfl]
  norm_num [calculateCartTotals, demoCartA, setItemQty]

/-- C8. `addToCart` semantics: with quantity ≥ 1 and well-formed line
quantities, it fails with `ProductUnavailable` when the product is missing
or inactive, fails with `OutOfStock` when available stock is below
existing-cart-quantity + requested quantity, and otherwise merges
additively into the existing line or appends a new line whose unit price
is snapshotted from the product's current `finalPrice` (discounted
price), recomputing totals. -/
theorem addToCart_semantics :
    ∀ (c : Catalog) (cart : Cart) (pid : ℕ) (q : ℤ),
      1 ≤ q → (∀ item ∈ cart.items, 1 ≤ item.quantity) →
      ((∀ p, findById c pid = some p → p.isActive = false) →
         addToCart c cart pid q = .error .productNotFound) ∧
      (∀ p, findById c pid = some p → p.isActive = true →
        (p.stock < existingQty cart pid + q →
           addToCart c cart pid q = .error .insufficientStock) ∧
        (existingQty cart pid + q ≤ p.stock →
           (∀ item, findItem cart.items pid = some item →
              addToCart c cart pid q = .ok (calculateCartTotals
                { cart with items :=
                    setItemQty cart.items pid (item.quantity + q) })) ∧
           (findItem cart.items pid = none →
              addToCart c cart pid q = .ok (calculateCartTotals
                { cart with items := cart.items ++
                    [{ product := pid, name := p.name,
                       price := p.finalPrice, quantity := q,
                       image := p.images.head? }] })))) := by
  intro c cart pid q hq hquants
  constructor
  · intro hmiss
    unfold addToCart
    cases hfind : findById c pid with
    | none => rfl
    | some p =>
        dsimp only []
        rw [hmiss p hfind]
        rfl
  · intro p hfind hact
    have hex0 : findItem cart.items pid = none → existingQty cart pid = 0 := by
      intro hit; unfold existingQty; rw [hit]
    have hexs : ∀ item, findItem cart.items pid = some item →
        1 ≤ item.quantity ∧ existingQty cart pid = item.quantity := by
      intro item hit
      refine ⟨hquants item (List.mem_of_find?_eq_some hit), ?_⟩
      unfold existingQty; rw [hit]
    constructor
    · intro hlt
      unfold addToCart
      rw [hfind]
      dsimp only []
      rw [hact]
      cases hitem : findItem cart.items pid with
      | none =>
          rw [hex0 hitem] at hlt
          simp only [Bool.not_true, Bool.false_eq_true, if_false]
          rw [if_pos (by omega)]
      | some item =>
          obtain ⟨h1, hex⟩ := hexs item hitem
          rw [hex] at hlt
          simp only [Bool.not_true, Bool.false_eq_true, if_false]
          by_cases hs : p.stock < q
          · rw [if_pos hs]
          · rw [if_neg hs,
              if_pos (show p.stock < item.quantity + q by omega)]
    · intro hle
      constructor
      · intro item hitem
        obtain ⟨h1, hex⟩ := hexs item hitem
        rw [hex] at hle
        unfold addToCart
        rw [hfind]
        dsimp only []
        rw [hact]
        simp only [Bool.not_true, Bool.false_eq_true, if_false]
        rw [if_neg (by omega), hitem]
        simp only []
        rw [if_neg (by omega)]
      · intro hitem
        rw [hex0 hitem] at hle
        unfold addToCart
        rw [hfind]
        dsimp only []
        rw [hact]
        simp only [Bool.not_true, Bool.false_eq_true, if_false]
        rw [if_neg (by omega), hitem]

/-- C8 witness: a missing product is rejected; adding 3 more of `prodA`
to a cart already holding 3 with stock 5 is rejected as out of stock;
adding the discounted `prodB` to an empty cart appends a line priced at
the discounted 40, with recomputed totals. -/
theorem addToCart_semantics_witness :
    addToCart [] emptyCart 1 1 = .error .productNotFound ∧
    addToCart [prodA] demoCartA 1 3 = .error .insufficientStock ∧
    addToCart [prodA, prodB] emptyCart 2 1 =
      .ok { items := [{ product := 2, name := "B", price := 40,
                        quantity := 1, image := none }],
            totalAmount := 40, totalItems := 1 } := by
  refine ⟨?_, ?_, ?_⟩
  · exact (addToCart_semantics [] emptyCart 1 1 (by norm_num)
      (by simp [emptyCart])).1 (fun p hp => by simp [findById] at hp)
  · exact ((addToCart_semantics [prodA] demoCartA 1 3 (by norm_num)
      (by intro item h; fin_cases h <;> norm_num)).2 prodA rfl rfl).1
      (by norm_num [existingQty, findItem, demoCartA, prodA, List.find?])
  · have h := ((addToCart_semantics [prodA, prodB] emptyCart 2 1
      (by norm_num) (by simp [emptyCart])).2 prodB rfl rfl).2
      (by norm_num [existingQty, findItem, emptyCart, prodB, List.find?])
    rw [h.2 rfl]
    norm_num [calculateCartTotals, emptyCart, prodB, Product.finalPrice]

/-- C9. Order pricing: every successfully created order has
`subtotal = Σ quantity × current finalPrice` re-read from the catalog at
assembly time, `shippingCost = 0` iff `subtotal ≥ 500` and the flat 29.99
otherwise, `tax = 20%` of subtotal, and
`total = subtotal + shippingCost + tax`. -/
theorem order_pricing :
    ∀ (st : SysState) (u : ℕ) (order : Order),
      (createOrder st u).1 = .ok order →
      order.subtotal = specSubtotal st.catalog (st.carts u).items ∧
      order.shippingCost =
        (if order.subtotal ≥ 500 then 0 else 2999 / 100) ∧
      order.tax = order.subtotal * (20 / 100) ∧
      order.total = order.subtotal + order.shippingCost + order.tax := by
  intro st u order h
  unfold createOrder at h
  simp only [] at h
  split at h
  · exact absurd h (by simp)
  · split at h
    · exact absurd h (by simp)
    · rename_i res orderItems subtotal hbuild
      split at h
      · exact absurd h (by simp)
      · rw [Except.ok.injEq] at h
        subst h
        exact ⟨buildOrderItems_subtotal hbuild, rfl, rfl, rfl⟩

/-- C9 witness: the concrete order created from `demoState` is priced
subtotal 300, shipping 29.99, tax 60, total 389.99, matching the spec
formulas. -/
theorem order_pricing_witness :
    demoOrder.subtotal = specSubtotal demoState.catalog
      (demoState.carts 7).items ∧
    demoOrder.shippingCost =
      (if demoOrder.subtotal ≥ 500 then 0 else 2999 / 100) ∧
    demoOrder.tax = demoOrder.subtotal * (20 / 100) ∧
    demoOrder.total =
      demoOrder.subtotal + demoOrder.shippingCost + demoOrder.tax :=
  order_pricing demoState 7 demoOrder (by
    norm_num [createOrder, buildOrderItems, findById, List.find?, demoState,
      setCart, prodA, prodB, demoCartA, emptyCart, Product.finalPrice,
      calculateShipping, calculateTax, decrementStockLoop, updateStock,
      saveProduct, demoOrder])

/-- C3 (code bug). `cancelOrder` fails with `NotCancellable` unless the
order's status is `pending` or `confirmed`; on success (with every line's
product still resolvable, the schema's non-negative stock and quantities,
and distinct line products) it increments each product's available stock
by exactly that line's quantity, saves the order as `cancelled` with
`cancelledAt`, and a second cancel on the same order fails with
`NotCancellable` — but the given reason is NOT recorded: the source's
`order.cancelReason = reason` assignment targets a path absent from the
order schema (which defines `cancelledReason`) and is dropped by Mongoose
strict mode on save, so the persisted order's `cancelledReason` equals
its pre-call value and depends on the `reason` argument in no way. -/
theorem cancelOrder_semantics :
    ∀ (st : SysState) (orderId userId : ℕ) (reason : String) (now : ℕ)
      (order : Order),
      findOrder st.orders orderId userId = some order →
      (¬(order.status = .pending ∨ order.status = .confirmed) →
         cancelOrder st orderId userId reason now =
           (.error .notCancellable, st)) ∧
      ((order.status = .pending ∨ order.status = .confirmed) →
       (∀ item ∈ order.items, ∃ p, findById st.catalog item.product = some p) →
       (∀ r ∈ st.catalog, 0 ≤ r.stock) →
       (∀ item ∈ order.items, 0 ≤ item.quantity) →
       (order.items.map OrderItem.product).Nodup →
       ∃ st2,
         cancelOrder st orderId userId reason now =
           (.ok { order with
                  status := .cancelled, cancelledAt := some now },
            st2) ∧
         (∀ (o2 : Order) (st2' : SysState),
            cancelOrder st orderId userId reason now = (.ok o2, st2') →
            o2.cancelledReason = order.cancelledReason) ∧
         (∀ item ∈ order.items, ∀ p,
            findById st.catalog item.product = some p →
            findById st2.catalog item.product =
              some { p with stock := p.stock + item.quantity }) ∧
         (∀ (reason2 : String) (now2 : ℕ),
            (cancelOrder st2 orderId userId reason2 now2).1 =
              .error .notCancellable)) := by
  intro st orderId userId reason now order hfind
  constructor
  · intro hstat
    unfold cancelOrder
    rw [hfind]
    dsimp only []
    rw [if_neg hstat]
  · intro hstat hex hnn hq hnodup
    obtain ⟨c2, hloop, -, hrestore, -⟩ :=
      restoreStockLoop_ok (c := st.catalog) hex hnn hq hnodup
    have heq : cancelOrder st orderId userId reason now =
        (.ok { order with status := .cancelled, cancelledAt := some now },
         { st with
           catalog := c2,
           orders := saveOrder st.orders
             { order with
               status := .cancelled, cancelledAt := some now } }) := by
      unfold cancelOrder
      rw [hfind]
      dsimp only []
      rw [if_pos hstat, hloop]
    refine ⟨{ st with
              catalog := c2,
              orders := saveOrder st.orders
                { order with
                  status := .cancelled, cancelledAt := some now } },
            heq, ?_, hrestore, ?_⟩
    · intro o2 st2' h2
      rw [heq, Prod.mk.injEq, Except.ok.injEq] at h2
      rw [← h2.1]
    · intro reason2 now2
      have huser := findOrder_user hfind
      have hfind2 : findOrder
          (saveOrder st.orders
            { order with
              status := .cancelled, cancelledAt := some now })
          orderId userId =
          some { order with
                 status := .cancelled, cancelledAt := some now } :=
        findOrder_saveOrder hfind rfl huser.2
      unfold cancelOrder
      rw [hfind2]
      dsimp only []
      rw [if_neg (by simp)]

/-- C3 witness, evaluating the code at the failing input: cancelling the
`[(A,2),(B,1)]` order restores `available(A) += 2` and
`available(B) += 1`, marks the order cancelled with `cancelledAt` but
with `cancelledReason` still `none` despite the passed reason, and a
second cancel fails. -/
theorem cancelOrder_semantics_witness :
    (∃ st2,
      cancelOrder demoCancelState 0 7 "changed mind" 5 =
        (.ok { demoCancelOrder with
               status := .cancelled, cancelledAt := some 5 },
         st2) ∧
      (∀ (o2 : Order) (st2' : SysState),
         cancelOrder demoCancelState 0 7 "changed mind" 5 =
           (.ok o2, st2') →
         o2.cancelledReason = none) ∧
      findById st2.catalog 1 = some { prodA with stock := prodA.stock + 2 } ∧
      findById st2.catalog 2 = some { prodB with stock := prodB.stock + 1 } ∧
      (cancelOrder st2 0 7 "again" 6).1 = .error .notCancellable) := by
  obtain ⟨st2, heq, hreason, hrestore, hsecond⟩ :=
    (cancelOrder_semantics demoCancelState 0 7 "changed mind" 5
      demoCancelOrder rfl).2 (Or.inl rfl)
      (by
        intro item h
        fin_cases h
        · exact ⟨prodA, rfl⟩
        · exact ⟨prodB, rfl⟩)
      (by decide) (by decide) (by decide)
  refine ⟨st2, heq, hreason, ?_, ?_, hsecond "again" 6⟩
  · exact hrestore
      { product := 1, name := "A", quantity := 2, price := 100, total := 200 }
      (by simp [demoCancelOrder]) prodA rfl
  · exact hrestore
      { product := 2, name := "B", quantity := 1, price := 40, total := 40 }
      (by simp [demoCancelOrder]) prodB rfl

/-- C4 (code bug). `orderSchema.methods.updateStatus` never appends to
`statusHistory`: the source writes `this.statusHistory.push[{...}]`,
which indexes into the `push` function instead of calling it, so the
history does not grow on any call (while `status` and, for `delivered`,
`deliveredAt` are set as documented). -/
theorem updateStatus_never_appends_history :
    ∀ (o : Order) (s : OrderStatus) (note : String) (now : ℕ),
      (Order.updateStatus o s note now).statusHistory = o.statusHistory ∧
      (Order.updateStatus o s note now).status = s ∧
      (Order.updateStatus o .delivered note now).deliveredAt = some now := by
  intro o s note now
  refine ⟨?_, ?_, rfl⟩
  · unfold Order.updateStatus
    split
    · rfl
    · split <;> rfl
  · unfold Order.updateStatus
    split
    · rfl
    · split <;> rfl

end ECom
